import Mathlib

/-!
Shallow embedding of the text-expansion daemon in `src/main.rs`.

Strings that the program manipulates character by character (the key buffer,
trigger suffix checks, placeholder substitution) are modelled as `String` /
`List Char`.  Every character appended to the buffer comes from `key_to_char`,
which only produces ASCII characters, so the source's byte-index operations
(`String::drain`, `str::len`, `ends_with`) coincide with the character-level
operations used here.

External processes (invoked by `run_command` through `std::process::Command`)
are modelled by an environment `OS` mapping a command name and argument list
to the observable outcome: `none` when spawning fails, otherwise an exit
status together with the UTF-8 decoding of standard output (`none` when the
output is not valid UTF-8).
-/

namespace TextExpanderModel

/-- Characters with the Unicode `White_Space` property, the set trimmed by
Rust's `str::trim` (via `char::is_whitespace`). -/
def rustIsWhitespace (c : Char) : Bool :=
  ([0x09, 0x0A, 0x0B, 0x0C, 0x0D, 0x20, 0x85, 0xA0, 0x1680,
    0x2000, 0x2001, 0x2002, 0x2003, 0x2004, 0x2005, 0x2006, 0x2007, 0x2008,
    0x2009, 0x200A, 0x2028, 0x2029, 0x202F, 0x205F, 0x3000] : List Nat).contains c.toNat

/-- Embedding of Rust `str::trim`: remove whitespace from both ends. -/
def rustTrim (s : String) : String :=
  ⟨((s.data.dropWhile rustIsWhitespace).reverse.dropWhile rustIsWhitespace).reverse⟩

/-- Observable result of a completed subprocess (`std::process::Output`):
the exit status and the UTF-8 decoding of its standard output
(`none` when the bytes are not valid UTF-8). -/
structure CmdOutput where
  status : Int
  stdout : Option String
deriving DecidableEq

/-- Environment the program runs in: what each external command invocation
returns. `none` models a spawn failure (e.g. process not found). -/
def OS : Type := String → List String → Option CmdOutput

/-- Embedding of `run_command` (src/main.rs:85-93): spawn failure or
undecodable output become the empty string, otherwise the trimmed stdout. -/
def run_command (os : OS) (cmd : String) (args : List String) : String :=
  match os cmd args with
  | none => ""
  | some o =>
    match o.stdout with
    | none => ""
    | some s => rustTrim s

/-- Left curly brace character (written via its code point). -/
def braceL : Char := Char.ofNat 123

/-- Right curly brace character (written via its code point). -/
def braceR : Char := Char.ofNat 125

/-- Double-quote character. -/
def quoteD : Char := Char.ofNat 34

/-- Single-quote character. -/
def quoteS : Char := Char.ofNat 39

/-- Backslash character. -/
def backslashC : Char := Char.ofNat 92

/-- Backquote character. -/
def backquoteC : Char := Char.ofNat 96

/-- Fuel-indexed core of Rust `str::replace` for a non-empty pattern:
scan left to right, replacing non-overlapping occurrences of `pat` by `rep`.
The fuel is an upper bound on the number of scan steps; each step consumes at
least one character, so fuel `s.length` is always enough. -/
def listReplaceAux (pat rep : List Char) : Nat → List Char → List Char
  | 0, s => s
  | _ + 1, [] => []
  | fuel + 1, c :: rest =>
    if pat.isPrefixOf (c :: rest) then
      rep ++ listReplaceAux pat rep fuel ((c :: rest).drop pat.length)
    else
      c :: listReplaceAux pat rep fuel rest

/-- Embedding of Rust `str::replace` on character lists.  An empty pattern
matches at every character boundary (Rust yields `-a-b-c-` for
`"abc".replace("", "-")`). -/
def listReplace (s pat rep : List Char) : List Char :=
  match pat with
  | [] => rep ++ s.foldr (fun c acc => c :: (rep ++ acc)) []
  | _ :: _ => listReplaceAux pat rep s.length s

/-- Embedding of Rust `String::replace` on `String`. -/
def strReplace (s pat rep : String) : String :=
  ⟨listReplace s.data pat.data rep.data⟩

/-- The literal placeholder text for a variable name, as produced by
`format!` at src/main.rs:77 and :79. -/
def placeholder (name : String) : String :=
  ⟨braceL :: braceL :: (name.data ++ [braceR, braceR])⟩

/-- Kind-specific parameters of a variable (struct `VarParams`). -/
structure VarParams where
  format : Option String
  cmd : Option String
  echo : Option String
deriving DecidableEq

/-- A template variable (struct `Var`): name, string-tagged kind, parameters. -/
structure Var where
  name : String
  var_type : String
  params : VarParams
deriving DecidableEq

/-- A configured trigger's expansion data (struct `Trigger`). -/
structure Trigger where
  replace : String
  vars : List Var
deriving DecidableEq

/-- Resolution of one variable, the `match var.var_type.as_str()` at
src/main.rs:60-78.  Rust's `match` on a string is an equality chain. -/
def resolveVar (os : OS) (v : Var) : String :=
  if v.var_type = "date" then
    run_command os "date" [("+" ++ v.params.format.getD "%Y-%m-%d")]
  else if v.var_type = "shell" then
    match v.params.cmd with
    | some c => run_command os "sh" ["-c", c]
    | none => ""
  else if v.var_type = "clipboard" then
    run_command os "wl-paste" ["-n"]
  else if v.var_type = "echo" then
    match v.params.echo, v.params.format with
    | some e, _ => e
    | none, some f => f
    | none, none => ""
  else
    placeholder v.name

/-- Embedding of `Trigger::expand` (src/main.rs:56-82): fold over the
variable list, globally replacing each placeholder by its resolved value. -/
def Trigger.expand (os : OS) (t : Trigger) : String :=
  t.vars.foldl (fun result v => strReplace result (placeholder v.name) (resolveVar os v)) t.replace

/-- The physical keys the program distinguishes (the `evdev::Key` codes named
in the source); `KEY_OTHER n` stands for every other key code. -/
inductive Key where
  | KEY_A | KEY_B | KEY_C | KEY_D | KEY_E | KEY_F | KEY_G | KEY_H
  | KEY_I | KEY_J | KEY_K | KEY_L | KEY_M | KEY_N | KEY_O | KEY_P
  | KEY_Q | KEY_R | KEY_S | KEY_T | KEY_U | KEY_V | KEY_W | KEY_X
  | KEY_Y | KEY_Z
  | KEY_1 | KEY_2 | KEY_3 | KEY_4 | KEY_5 | KEY_6 | KEY_7 | KEY_8
  | KEY_9 | KEY_0
  | KEY_MINUS | KEY_EQUAL | KEY_LEFTBRACE | KEY_RIGHTBRACE | KEY_SEMICOLON
  | KEY_APOSTROPHE | KEY_GRAVE | KEY_BACKSLASH | KEY_COMMA | KEY_DOT
  | KEY_SLASH | KEY_SPACE
  | KEY_ENTER | KEY_TAB | KEY_ESC | KEY_BACKSPACE
  | KEY_LEFTSHIFT | KEY_RIGHTSHIFT
  | KEY_OTHER (code : Nat)

/-- Embedding of `key_to_char` (src/main.rs:95-129): the US-layout character
for a key under a shift state, `none` for unsupported keys. -/
def key_to_char (key : Key) (shift : Bool) : Option Char :=
  let c? : Option Char :=
    match key with
    | Key.KEY_A => some 'a'
    | Key.KEY_B => some 'b'
    | Key.KEY_C => some 'c'
    | Key.KEY_D => some 'd'
    | Key.KEY_E => some 'e'
    | Key.KEY_F => some 'f'
    | Key.KEY_G => some 'g'
    | Key.KEY_H => some 'h'
    | Key.KEY_I => some 'i'
    | Key.KEY_J => some 'j'
    | Key.KEY_K => some 'k'
    | Key.KEY_L => some 'l'
    | Key.KEY_M => some 'm'
    | Key.KEY_N => some 'n'
    | Key.KEY_O => some 'o'
    | Key.KEY_P => some 'p'
    | Key.KEY_Q => some 'q'
    | Key.KEY_R => some 'r'
    | Key.KEY_S => some 's'
    | Key.KEY_T => some 't'
    | Key.KEY_U => some 'u'
    | Key.KEY_V => some 'v'
    | Key.KEY_W => some 'w'
    | Key.KEY_X => some 'x'
    | Key.KEY_Y => some 'y'
    | Key.KEY_Z => some 'z'
    | Key.KEY_1 => some (if shift then '!' else '1')
    | Key.KEY_2 => some (if shift then '@' else '2')
    | Key.KEY_3 => some (if shift then '#' else '3')
    | Key.KEY_4 => some (if shift then '$' else '4')
    | Key.KEY_5 => some (if shift then '%' else '5')
    | Key.KEY_6 => some (if shift then '^' else '6')
    | Key.KEY_7 => some (if shift then '&' else '7')
    | Key.KEY_8 => some (if shift then '*' else '8')
    | Key.KEY_9 => some (if shift then '(' else '9')
    | Key.KEY_0 => some (if shift then ')' else '0')
    | Key.KEY_MINUS => some (if shift then '_' else '-')
    | Key.KEY_EQUAL => some (if shift then '+' else '=')
    | Key.KEY_LEFTBRACE => some (if shift then braceL else '[')
    | Key.KEY_RIGHTBRACE => some (if shift then braceR else ']')
    | Key.KEY_SEMICOLON => some (if shift then ':' else ';')
    | Key.KEY_APOSTROPHE => some (if shift then quoteD else quoteS)
    | Key.KEY_GRAVE => some (if shift then '~' else backquoteC)
    | Key.KEY_BACKSLASH => some (if shift then '|' else backslashC)
    | Key.KEY_COMMA => some (if shift then '<' else ',')
    | Key.KEY_DOT => some (if shift then '>' else '.')
    | Key.KEY_SLASH => some (if shift then '?' else '/')
    | Key.KEY_SPACE => some ' '
    | _ => none
  match c? with
  | none => none
  | some c => some (if shift && c.isAlpha then c.toUpper else c)

/-- State of the matching engine (struct `TextExpander`).  The `HashMap` of
triggers is modelled as an association list; the list order stands for the
map's incidental iteration order. -/
structure TextExpander where
  triggers : List (String × Trigger)
  buffer : List Char
  max_len : Nat
  shift : Bool

/-- Embedding of `TextExpander::new` (src/main.rs:303-306): `max_len` is the
length of the longest configured trigger, or 64 when none are configured. -/
def TextExpander.new (triggers : List (String × Trigger)) : TextExpander :=
  let max_len :=
    match triggers.map (fun kv => kv.1.length) with
    | [] => 64
    | x :: xs => xs.foldl Nat.max x
  { triggers := triggers, buffer := [], max_len := max_len, shift := false }

/-- Append a character to the buffer and truncate from the front when it
exceeds `max_len` (src/main.rs:323-326). -/
def pushChar (max_len : Nat) (buffer : List Char) (c : Char) : List Char :=
  if max_len < (buffer ++ [c]).length then
    (buffer ++ [c]).drop ((buffer ++ [c]).length - max_len)
  else
    buffer ++ [c]

/-- The scan loop at src/main.rs:328-334: return the first trigger, in
iteration order, whose string is a suffix of the buffer. -/
def findMatch (os : OS) (buffer : List Char) : List (String × Trigger) → Option (Nat × String)
  | [] => none
  | (trig, data) :: rest =>
    if trig.data.isSuffixOf buffer then some (trig.length, Trigger.expand os data)
    else findMatch os buffer rest

/-- Embedding of `TextExpander::process` (src/main.rs:308-337): returns the
updated state together with the optional match result
`(charactersToDelete, expansionText)`.  The source's equality test
`key == KEY_LEFTSHIFT || key == KEY_RIGHTSHIFT` is rendered as the
equivalent discrimination on the two shift keys. -/
def TextExpander.process (os : OS) (te : TextExpander) (key : Key) (pressed : Bool) :
    TextExpander × Option (Nat × String) :=
  match key with
  | Key.KEY_LEFTSHIFT => ({ te with shift := pressed }, none)
  | Key.KEY_RIGHTSHIFT => ({ te with shift := pressed }, none)
  | _ =>
    if !pressed then
      (te, none)
    else
      match key with
      | Key.KEY_ENTER => ({ te with buffer := [] }, none)
      | Key.KEY_TAB => ({ te with buffer := [] }, none)
      | Key.KEY_ESC => ({ te with buffer := [] }, none)
      | Key.KEY_BACKSPACE => ({ te with buffer := te.buffer.dropLast }, none)
      | _ =>
        match key_to_char key te.shift with
        | none => (te, none)
        | some c =>
          match findMatch os (pushChar te.max_len te.buffer c) te.triggers with
          | some r => ({ te with buffer := [] }, some r)
          | none => ({ te with buffer := pushChar te.max_len te.buffer c }, none)

/-- Fold `process` over a whole sequence of key events, keeping the state. -/
def processAll (os : OS) (te : TextExpander) : List (Key × Bool) → TextExpander
  | [] => te
  | e :: rest => processAll os (TextExpander.process os te e.1 e.2).1 rest

/-- Environment in which every command spawn fails. -/
def osNone : OS := fun _ _ => none

/-- Environment in which `sh` exits with status 1 but prints `hello`;
every other command fails to spawn. -/
def os1 : OS := fun cmd _ =>
  if cmd = "sh" then some { status := 1, stdout := some "hello" } else none

/-- Environment in which every command succeeds with undecodable output. -/
def os2 : OS := fun _ _ => some { status := 0, stdout := none }

/-- Environment in which every command succeeds and prints `zzz`. -/
def osB : OS := fun _ _ => some { status := 0, stdout := some "zzz" }

/-- A variable-free trigger expanding to `A`. -/
def trigHI : Trigger := { replace := "A", vars := [] }

/-- A variable-free trigger expanding to `B`. -/
def trigCHI : Trigger := { replace := "B", vars := [] }

/-- Two triggers, one a suffix of the other, shorter one first in iteration
order. -/
def trigsC2 : List (String × Trigger) := [("hi:", trigHI), (":hi:", trigCHI)]

/-- The same two triggers in the opposite iteration order. -/
def trigsC2rev : List (String × Trigger) := [(":hi:", trigCHI), ("hi:", trigHI)]

/-- Key events typing the three characters `:hi` and then holding shift:
shift down, `;` (giving `:`), shift up, `h`, `i`, shift down. -/
def evC2 : List (Key × Bool) :=
  [(Key.KEY_LEFTSHIFT, true), (Key.KEY_SEMICOLON, true), (Key.KEY_LEFTSHIFT, false),
   (Key.KEY_H, true), (Key.KEY_I, true), (Key.KEY_LEFTSHIFT, true)]

/-- Expander state after typing `:hi` with shift held again, spelled out. -/
def teC2 : TextExpander :=
  { triggers := trigsC2, buffer := [':', 'h', 'i'], max_len := 4, shift := true }

/-- A shell variable whose command succeeds per the chosen environment. -/
def varSh : Var :=
  { name := "v", var_type := "shell",
    params := { format := none, cmd := some "true", echo := none } }

/-- A trigger whose template is exactly the shell variable's placeholder. -/
def t4 : Trigger := { replace := placeholder "v", vars := [varSh] }

/-- A variable with an unknown kind tag. -/
def vUnknown : Var :=
  { name := "n", var_type := "fancy",
    params := { format := none, cmd := none, echo := none } }

/-- A template with the unknown variable's placeholder in the middle. -/
def tpl5 : String := "x" ++ placeholder "n" ++ "y"

/-- An echo variable, resolving without consulting the environment. -/
def vEcho : Var :=
  { name := "e", var_type := "echo",
    params := { format := none, cmd := none, echo := some "hi" } }

/-- A trigger whose template is exactly the echo variable's placeholder. -/
def tEcho : Trigger := { replace := placeholder "e", vars := [vEcho] }

/-- A single-trigger table for the unique-suffix-match scenario. -/
def trigsOne : List (String × Trigger) := [("hi", trigHI)]

/-- Expander state reached from `trigsOne` after pressing the `h` key. -/
def teC3w : TextExpander :=
  processAll osNone (TextExpander.new trigsOne) [(Key.KEY_H, true)]

/-- A small concrete expander state used for frame-condition witnesses. -/
def teFix : TextExpander :=
  { triggers := trigsOne, buffer := ['h'], max_len := 2, shift := false }

/-- The 26 letter keys. -/
def letterKeys : List Key :=
  [Key.KEY_A, Key.KEY_B, Key.KEY_C, Key.KEY_D, Key.KEY_E, Key.KEY_F, Key.KEY_G,
   Key.KEY_H, Key.KEY_I, Key.KEY_J, Key.KEY_K, Key.KEY_L, Key.KEY_M, Key.KEY_N,
   Key.KEY_O, Key.KEY_P, Key.KEY_Q, Key.KEY_R, Key.KEY_S, Key.KEY_T, Key.KEY_U,
   Key.KEY_V, Key.KEY_W, Key.KEY_X, Key.KEY_Y, Key.KEY_Z]

/-- The 48 keys of the supported printable domain: letters, digits, the
eleven punctuation keys, and space. -/
def printableKeys : List Key :=
  letterKeys ++
  [Key.KEY_1, Key.KEY_2, Key.KEY_3, Key.KEY_4, Key.KEY_5, Key.KEY_6, Key.KEY_7,
   Key.KEY_8, Key.KEY_9, Key.KEY_0,
   Key.KEY_MINUS, Key.KEY_EQUAL, Key.KEY_LEFTBRACE, Key.KEY_RIGHTBRACE,
   Key.KEY_SEMICOLON, Key.KEY_APOSTROPHE, Key.KEY_GRAVE, Key.KEY_BACKSLASH,
   Key.KEY_COMMA, Key.KEY_DOT, Key.KEY_SLASH, Key.KEY_SPACE]

lemma string_eq_of_data (s t : String) (h : s.data = t.data) : s = t := by
  cases s
  cases t
  exact congrArg String.mk h

lemma placeholder_ne_empty (name : String) : placeholder name ≠ "" := by
  intro h
  have hd : (placeholder name).data = ("" : String).data := congrArg String.data h
  simp [placeholder] at hd

lemma listReplaceAux_self (pat : List Char) (hp : pat ≠ []) :
    ∀ (fuel : Nat) (s : List Char), s.length ≤ fuel → listReplaceAux pat pat fuel s = s := by
  intro fuel
  induction fuel with
  | zero =>
    intro s _
    rfl
  | succ n ih =>
    intro s hs
    match s with
    | [] => rfl
    | c :: rest =>
      rw [listReplaceAux]
      by_cases h : pat.isPrefixOf (c :: rest)
      · rw [if_pos h]
        obtain ⟨t, ht⟩ := List.isPrefixOf_iff_prefix.1 h
        have hlen : pat.length + t.length = rest.length + 1 := by
          have := congrArg List.length ht
          simpa using this
        have hple : 1 ≤ pat.length := by
          cases pat with
          | nil => exact absurd rfl hp
          | cons a l => simp
        have hdrop : (c :: rest).drop pat.length = t := by
          rw [← ht, List.drop_left]
        have hrest : rest.length + 1 ≤ n + 1 := by simpa using hs
        rw [hdrop, ih t (by omega), ht]
      · rw [if_neg h]
        have hrest : rest.length + 1 ≤ n + 1 := by simpa using hs
        rw [ih rest (by omega)]

lemma listReplace_self (s pat : List Char) (hp : pat ≠ []) :
    listReplace s pat pat = s := by
  match pat with
  | [] => exact absurd rfl hp
  | c :: cs =>
    show listReplaceAux (c :: cs) (c :: cs) s.length s = s
    exact listReplaceAux_self (c :: cs) hp s.length s le_rfl

lemma strReplace_self (s p : String) (hp : p ≠ "") : strReplace s p p = s := by
  have hd : p.data ≠ [] := by
    intro h
    exact hp (string_eq_of_data p "" (by simp [h]))
  apply string_eq_of_data
  show listReplace s.data p.data p.data = s.data
  exact listReplace_self s.data p.data hd

lemma pushChar_length (m : Nat) (buf : List Char) (c : Char) :
    (pushChar m buf c).length = min (buf.length + 1) m := by
  unfold pushChar
  split
  · rename_i h
    simp only [List.length_drop, List.length_append, List.length_cons,
      List.length_nil] at *
    omega
  · rename_i h
    simp only [List.length_append, List.length_cons, List.length_nil] at *
    omega

lemma pushChar_suffix (m : Nat) (buf : List Char) (c : Char) :
    pushChar m buf c <:+ buf ++ [c] := by
  unfold pushChar
  split
  · exact List.drop_suffix _ _
  · exact List.suffix_refl _

lemma process_state (os : OS) (te : TextExpander) (k : Key) (p : Bool) :
    (TextExpander.process os te k p).1.max_len = te.max_len ∧
    (TextExpander.process os te k p).1.triggers = te.triggers ∧
    (TextExpander.process os te k p).1.buffer.length
      ≤ max te.buffer.length te.max_len := by
  unfold TextExpander.process
  split
  · exact ⟨rfl, rfl, Nat.le_max_left _ _⟩
  · exact ⟨rfl, rfl, Nat.le_max_left _ _⟩
  · split
    · exact ⟨rfl, rfl, Nat.le_max_left _ _⟩
    · split
      · exact ⟨rfl, rfl, Nat.zero_le _⟩
      · exact ⟨rfl, rfl, Nat.zero_le _⟩
      · exact ⟨rfl, rfl, Nat.zero_le _⟩
      · exact ⟨rfl, rfl,
          le_trans (le_of_eq (List.length_dropLast _))
            (le_trans (Nat.sub_le _ _) (Nat.le_max_left _ _))⟩
      · split
        · exact ⟨rfl, rfl, Nat.le_max_left _ _⟩
        · split
          · exact ⟨rfl, rfl, Nat.zero_le _⟩
          · exact ⟨rfl, rfl,
              le_trans (le_of_eq (pushChar_length _ _ _))
                (le_trans (Nat.min_le_right _ _) (Nat.le_max_right _ _))⟩

lemma processAll_inv (os : OS) (events : List (Key × Bool)) :
    ∀ (te : TextExpander), te.buffer.length ≤ te.max_len →
      (processAll os te events).max_len = te.max_len ∧
      (processAll os te events).buffer.length ≤ te.max_len := by
  induction events with
  | nil =>
    intro te h
    exact ⟨rfl, h⟩
  | cons e rest ih =>
    intro te h
    have hs := process_state os te e.1 e.2
    have hmax : max te.buffer.length te.max_len = te.max_len := by omega
    have hb : (TextExpander.process os te e.1 e.2).1.buffer.length
        ≤ (TextExpander.process os te e.1 e.2).1.max_len := by
      rw [hs.1]
      omega
    obtain ⟨h1, h2⟩ := ih (TextExpander.process os te e.1 e.2).1 hb
    refine ⟨?_, ?_⟩
    · show (processAll os (TextExpander.process os te e.1 e.2).1 rest).max_len = te.max_len
      rw [h1, hs.1]
    · show (processAll os (TextExpander.process os te e.1 e.2).1 rest).buffer.length ≤ te.max_len
      rw [hs.1] at h2
      exact h2

lemma process_char (os : OS) (te : TextExpander) (key : Key) (c : Char)
    (h₁ : key ≠ Key.KEY_LEFTSHIFT) (h₂ : key ≠ Key.KEY_RIGHTSHIFT)
    (h₃ : key ≠ Key.KEY_ENTER) (h₄ : key ≠ Key.KEY_TAB) (h₅ : key ≠ Key.KEY_ESC)
    (h₆ : key ≠ Key.KEY_BACKSPACE)
    (hc : key_to_char key te.shift = some c) :
    TextExpander.process os te key true =
      match findMatch os (pushChar te.max_len te.buffer c) te.triggers with
      | some r => ({ te with buffer := [] }, some r)
      | none => ({ te with buffer := pushChar te.max_len te.buffer c }, none) := by
  cases key <;> simp_all [TextExpander.process]

lemma findMatch_eq_findFirst (os : OS) (buffer : List Char)
    (l : List (String × Trigger)) :
    findMatch os buffer l =
      (l.find? (fun kv => kv.1.data.isSuffixOf buffer)).map
        (fun kv => (kv.1.length, Trigger.expand os kv.2)) := by
  induction l with
  | nil => rfl
  | cons kv rest ih =>
    obtain ⟨trig, data⟩ := kv
    by_cases h : trig.data.isSuffixOf buffer
    · rw [findMatch, if_pos h]
      rw [List.find?_cons_of_pos _ (by simpa using h)]
      rfl
    · rw [findMatch, if_neg h]
      rw [List.find?_cons_of_neg _ (by simpa using h)]
      exact ih

lemma findMatch_unique (os : OS) (buffer : List Char) (t : String) (data : Trigger) :
    ∀ (l : List (String × Trigger)), (t, data) ∈ l →
      t.data.isSuffixOf buffer = true →
      (∀ p ∈ l, p.1.data.isSuffixOf buffer = true → p = (t, data)) →
      findMatch os buffer l = some (t.length, Trigger.expand os data) := by
  intro l
  induction l with
  | nil =>
    intro h
    simp at h
  | cons kv rest ih =>
    intro hmem hsfx huniq
    obtain ⟨trig, d⟩ := kv
    by_cases h : trig.data.isSuffixOf buffer = true
    · have heq := huniq (trig, d) (by simp) (by simpa using h)
      rw [findMatch, if_pos h]
      injection heq with e1 e2
      rw [e1, e2]
    · rw [findMatch, if_neg (by simpa using h)]
      apply ih
      · rcases List.mem_cons.1 hmem with heq | hm
        · injection heq with e1 e2
          rw [e1] at hsfx
          exact absurd hsfx h
        · exact hm
      · exact hsfx
      · intro p hp hps
        exact huniq p (List.mem_cons_of_mem _ hp) hps

lemma resolveVar_unknown (os : OS) (v : Var)
    (h1 : v.var_type ≠ "date") (h2 : v.var_type ≠ "shell")
    (h3 : v.var_type ≠ "clipboard") (h4 : v.var_type ≠ "echo") :
    resolveVar os v = placeholder v.name := by
  simp [resolveVar, h1, h2, h3, h4]

lemma foldl_expand_congr (os₁ os₂ : OS) :
    ∀ (l : List Var) (init : String),
      (∀ v ∈ l, resolveVar os₁ v = resolveVar os₂ v) →
      l.foldl (fun result v => strReplace result (placeholder v.name) (resolveVar os₁ v)) init =
      l.foldl (fun result v => strReplace result (placeholder v.name) (resolveVar os₂ v)) init := by
  intro l
  induction l with
  | nil =>
    intro init _
    rfl
  | cons v rest ih =>
    intro init h
    simp only [List.foldl_cons]
    rw [h v (by simp)]
    exact ih _ (fun w hw => h w (List.mem_cons_of_mem _ hw))

/-- C1: for every sequence of key events fed to `process` starting from a
fresh expander, after each call the buffer's length is at most `max_len`;
and the append step keeps exactly the most recent `max_len` characters: its
result has length `min (old + 1) max_len` and is a suffix of the old buffer
with the new character appended. -/
theorem c1_buffer_bounded (os : OS) (triggers : List (String × Trigger))
    (events : List (Key × Bool)) :
    (processAll os (TextExpander.new triggers) events).buffer.length
      ≤ (TextExpander.new triggers).max_len ∧
    ∀ (m : Nat) (buf : List Char) (c : Char),
      (pushChar m buf c).length = min (buf.length + 1) m ∧
      pushChar m buf c <:+ buf ++ [c] := by
  refine ⟨?_, ?_⟩
  · exact (processAll_inv os events (TextExpander.new triggers) (Nat.zero_le _)).2
  · intro m buf c
    exact ⟨pushChar_length m buf c, pushChar_suffix m buf c⟩

/-- C2 is false as stated: with triggers `hi:` and `:hi:` both configured and
the buffer holding `:hi`, a final `:` makes both triggers suffixes, yet
`process` returns the first trigger in iteration order, not the longest —
with `hi:` first the match deletes 3 characters and yields `A`, and with the
iteration order reversed the very same key events yield the other trigger. -/
theorem c2_counterexample :
    (":hi:" : String).data.isSuffixOf (pushChar 4 [':', 'h', 'i'] ':') = true ∧
    (TextExpander.process osNone
      (processAll osNone (TextExpander.new trigsC2) evC2)
      Key.KEY_SEMICOLON true).2 = some (3, "A") ∧
    (TextExpander.process osNone
      (processAll osNone (TextExpander.new trigsC2rev) evC2)
      Key.KEY_SEMICOLON true).2 = some (4, "B") := by decide

/-- C2 (amended): when a character append occurs, `process` returns the
match for the first trigger in the trigger table's iteration order whose
string is a suffix of the truncated buffer — deterministic only relative to
that incidental order, with no preference for the longest trigger. -/
theorem c2_first_match_in_order (os : OS) (te : TextExpander) (key : Key) (c : Char)
    (h₁ : key ≠ Key.KEY_LEFTSHIFT) (h₂ : key ≠ Key.KEY_RIGHTSHIFT)
    (h₃ : key ≠ Key.KEY_ENTER) (h₄ : key ≠ Key.KEY_TAB) (h₅ : key ≠ Key.KEY_ESC)
    (h₆ : key ≠ Key.KEY_BACKSPACE)
    (hc : key_to_char key te.shift = some c) :
    (TextExpander.process os te key true).2 =
      (te.triggers.find? (fun kv => kv.1.data.isSuffixOf (pushChar te.max_len te.buffer c))).map
        (fun kv => (kv.1.length, Trigger.expand os kv.2)) := by
  rw [process_char os te key c h₁ h₂ h₃ h₄ h₅ h₆ hc]
  rw [← findMatch_eq_findFirst]
  cases findMatch os (pushChar te.max_len te.buffer c) te.triggers <;> rfl

/-- Witness for the amended C2 at a concrete state and key press. -/
theorem c2_witness :
    (TextExpander.process osNone teC2 Key.KEY_SEMICOLON true).2 =
      (teC2.triggers.find? (fun kv => kv.1.data.isSuffixOf (pushChar teC2.max_len teC2.buffer ':'))).map
        (fun kv => (kv.1.length, Trigger.expand osNone kv.2)) :=
  c2_first_match_in_order osNone teC2 Key.KEY_SEMICOLON ':'
    (fun h => Key.noConfusion h) (fun h => Key.noConfusion h) (fun h => Key.noConfusion h)
    (fun h => Key.noConfusion h) (fun h => Key.noConfusion h) (fun h => Key.noConfusion h)
    (by decide)

/-- C3 is false as stated: trigger `:hi:` is configured and the appended `:`
makes the buffer end with it, yet the returned match deletes 3 characters
(for the other suffix trigger `hi:`), not `length ":hi:" = 4`. -/
theorem c3_counterexample :
    ((":hi:", trigCHI) ∈ trigsC2) ∧
    (":hi:" : String).data.isSuffixOf (pushChar 4 [':', 'h', 'i'] ':') = true ∧
    (TextExpander.process osNone
      (processAll osNone (TextExpander.new trigsC2) evC2)
      Key.KEY_SEMICOLON true).2 = some (3, "A") ∧
    (3 : Nat) ≠ (":hi:" : String).length := by decide

/-- C3 (amended): when a character append makes the buffer end with trigger
`t` and no other configured trigger is a suffix of the buffer, `process`
returns a match deleting exactly `length t` characters whose text is the
template expansion, and the buffer is empty immediately afterwards. -/
theorem c3_unique_suffix_match (os : OS) (te : TextExpander) (key : Key) (c : Char)
    (t : String) (data : Trigger)
    (h₁ : key ≠ Key.KEY_LEFTSHIFT) (h₂ : key ≠ Key.KEY_RIGHTSHIFT)
    (h₃ : key ≠ Key.KEY_ENTER) (h₄ : key ≠ Key.KEY_TAB) (h₅ : key ≠ Key.KEY_ESC)
    (h₆ : key ≠ Key.KEY_BACKSPACE)
    (hc : key_to_char key te.shift = some c)
    (hmem : (t, data) ∈ te.triggers)
    (hsfx : t.data.isSuffixOf (pushChar te.max_len te.buffer c) = true)
    (huniq : ∀ p ∈ te.triggers,
      p.1.data.isSuffixOf (pushChar te.max_len te.buffer c) = true → p = (t, data)) :
    (TextExpander.process os te key true).2 = some (t.length, Trigger.expand os data) ∧
    (TextExpander.process os te key true).1.buffer = [] := by
  have hfm := findMatch_unique os (pushChar te.max_len te.buffer c) t data
    te.triggers hmem hsfx huniq
  rw [process_char os te key c h₁ h₂ h₃ h₄ h₅ h₆ hc, hfm]
  exact ⟨rfl, rfl⟩

/-- Witness for the amended C3: typing `hi` against the single trigger `hi`
yields a 2-character delete and an empty buffer. -/
theorem c3_witness :
    (TextExpander.process osNone teC3w Key.KEY_I true).2 =
      some (2, Trigger.expand osNone trigHI) ∧
    (TextExpander.process osNone teC3w Key.KEY_I true).1.buffer = [] :=
  c3_unique_suffix_match osNone teC3w Key.KEY_I 'i' "hi" trigHI
    (fun h => Key.noConfusion h) (fun h => Key.noConfusion h) (fun h => Key.noConfusion h)
    (fun h => Key.noConfusion h) (fun h => Key.noConfusion h) (fun h => Key.noConfusion h)
    (by decide) (by decide) (by decide) (by decide)

/-- C4 is false as stated: in an environment where `sh` exits with status 1
but prints `hello`, the shell variable's placeholder is substituted with the
trimmed stdout `hello`, not with the empty string — the exit status is never
consulted. -/
theorem c4_counterexample :
    os1 "sh" ["-c", "true"] = some { status := 1, stdout := some "hello" } ∧
    run_command os1 "sh" ["-c", "true"] = "hello" ∧
    Trigger.expand os1 t4 = "hello" ∧
    ("hello" : String) ≠ "" := by decide

/-- C4 (amended): expansion is total, and a spawn failure or stdout that is
not valid UTF-8 degrades to the empty string; a non-zero exit status is
ignored — the trimmed stdout is substituted regardless of the status. -/
theorem c4_failed_command_empty (os : OS) (cmd : String) (args : List String)
    (h : ∀ o, os cmd args = some o → o.stdout = none) :
    run_command os cmd args = "" := by
  unfold run_command
  cases hos : os cmd args with
  | none => rfl
  | some o =>
    have hs := h o hos
    simp [hs]

/-- Witness for the amended C4 in an environment with undecodable output. -/
theorem c4_witness : run_command os2 "date" ["+%Y"] = "" :=
  c4_failed_command_empty os2 "date" ["+%Y"]
    (fun o ho => by injection ho with h; rw [← h])

/-- C5: a variable whose kind is none of date, shell, clipboard, echo
resolves to its own literal placeholder text, so expansion leaves every
occurrence of that placeholder unchanged: the variable's substitution pass
is the identity on the result. -/
theorem c5_unknown_kind (os : OS) (repl : String) (l₁ l₂ : List Var) (v : Var)
    (h : v.var_type ∉ (["date", "shell", "clipboard", "echo"] : List String)) :
    resolveVar os v = placeholder v.name ∧
    Trigger.expand os { replace := repl, vars := l₁ ++ v :: l₂ } =
      Trigger.expand os { replace := repl, vars := l₁ ++ l₂ } := by
  simp only [List.mem_cons, List.not_mem_nil, or_false, not_or] at h
  obtain ⟨h1, h2, h3, h4⟩ := h
  have hres := resolveVar_unknown os v h1 h2 h3 h4
  refine ⟨hres, ?_⟩
  show (l₁ ++ v :: l₂).foldl
      (fun result w => strReplace result (placeholder w.name) (resolveVar os w)) repl =
    (l₁ ++ l₂).foldl
      (fun result w => strReplace result (placeholder w.name) (resolveVar os w)) repl
  rw [List.foldl_append, List.foldl_append, List.foldl_cons, hres,
    strReplace_self _ _ (placeholder_ne_empty v.name)]

/-- Witness for C5 with a concrete variable of kind `fancy`. -/
theorem c5_witness :
    resolveVar osNone vUnknown = placeholder "n" ∧
    Trigger.expand osNone { replace := tpl5, vars := [vUnknown] } =
      Trigger.expand osNone { replace := tpl5, vars := [] } :=
  c5_unknown_kind osNone tpl5 [] [] vUnknown (by decide)

/-- C6: a press of Enter, Tab, or Escape clears the buffer to empty and
returns no match, whatever the prior state. -/
theorem c6_control_keys_clear (os : OS) (te : TextExpander) :
    (TextExpander.process os te Key.KEY_ENTER true).1.buffer = [] ∧
    (TextExpander.process os te Key.KEY_ENTER true).2 = none ∧
    (TextExpander.process os te Key.KEY_TAB true).1.buffer = [] ∧
    (TextExpander.process os te Key.KEY_TAB true).2 = none ∧
    (TextExpander.process os te Key.KEY_ESC true).1.buffer = [] ∧
    (TextExpander.process os te Key.KEY_ESC true).2 = none :=
  ⟨rfl, rfl, rfl, rfl, rfl, rfl⟩

/-- C7: a press of Backspace returns no match and drops exactly the last
buffered character (a no-op on the empty buffer), and any number of repeated
backspaces on an empty buffer leave it empty. -/
theorem c7_backspace (os : OS) (te : TextExpander) :
    (TextExpander.process os te Key.KEY_BACKSPACE true).2 = none ∧
    (TextExpander.process os te Key.KEY_BACKSPACE true).1.buffer = te.buffer.dropLast ∧
    ∀ n : Nat,
      (processAll os { te with buffer := [] }
        (List.replicate n (Key.KEY_BACKSPACE, true))).buffer = [] := by
  refine ⟨rfl, rfl, ?_⟩
  intro n
  induction n with
  | zero => rfl
  | succ k ih =>
    rw [List.replicate_succ, processAll]
    exact ih

/-- C8: expansion is deterministic in the resolved variable values — two
environments in which every variable of the template resolves identically
produce identical expansion text. -/
theorem c8_expand_deterministic (os₁ os₂ : OS) (t : Trigger)
    (h : ∀ v ∈ t.vars, resolveVar os₁ v = resolveVar os₂ v) :
    Trigger.expand os₁ t = Trigger.expand os₂ t :=
  foldl_expand_congr os₁ os₂ t.vars t.replace h

/-- Witness for C8: an echo variable resolves without consulting the
environment, so two very different environments expand identically. -/
theorem c8_witness : Trigger.expand osNone tEcho = Trigger.expand osB tEcho :=
  c8_expand_deterministic osNone osB tEcho (by decide)

set_option maxHeartbeats 1600000 in
/-- C9: the keymap is a pure total function; every supported printable key
yields a character under both shift states, shift uppercases letter keys and
produces the standard shifted symbol on digit and punctuation keys, and
every key outside the supported domain — by exhaustiveness of the `Key`
constructors these are exactly the control keys, the shift modifiers and
every other key code — yields no character regardless of shift state. -/
theorem c9_keymap :
    (∀ k ∈ printableKeys, ∀ b : Bool, (key_to_char k b).isSome = true) ∧
    (∀ k ∈ letterKeys, key_to_char k true = (key_to_char k false).map Char.toUpper) ∧
    (key_to_char Key.KEY_1 true = some '!' ∧ key_to_char Key.KEY_2 true = some '@' ∧
     key_to_char Key.KEY_3 true = some '#' ∧ key_to_char Key.KEY_4 true = some '$' ∧
     key_to_char Key.KEY_5 true = some '%' ∧ key_to_char Key.KEY_6 true = some '^' ∧
     key_to_char Key.KEY_7 true = some '&' ∧ key_to_char Key.KEY_8 true = some '*' ∧
     key_to_char Key.KEY_9 true = some '(' ∧ key_to_char Key.KEY_0 true = some ')' ∧
     key_to_char Key.KEY_MINUS true = some '_' ∧
     key_to_char Key.KEY_EQUAL true = some '+' ∧
     key_to_char Key.KEY_LEFTBRACE true = some braceL ∧
     key_to_char Key.KEY_RIGHTBRACE true = some braceR ∧
     key_to_char Key.KEY_SEMICOLON true = some ':' ∧
     key_to_char Key.KEY_APOSTROPHE true = some quoteD ∧
     key_to_char Key.KEY_GRAVE true = some '~' ∧
     key_to_char Key.KEY_BACKSLASH true = some '|' ∧
     key_to_char Key.KEY_COMMA true = some '<' ∧
     key_to_char Key.KEY_DOT true = some '>' ∧
     key_to_char Key.KEY_SLASH true = some '?') ∧
    (∀ b : Bool, (∀ n : Nat, key_to_char (Key.KEY_OTHER n) b = none) ∧
      key_to_char Key.KEY_ENTER b = none ∧ key_to_char Key.KEY_TAB b = none ∧
      key_to_char Key.KEY_ESC b = none ∧ key_to_char Key.KEY_BACKSPACE b = none ∧
      key_to_char Key.KEY_LEFTSHIFT b = none ∧
      key_to_char Key.KEY_RIGHTSHIFT b = none) := by
  refine ⟨?_, ?_, by decide, ?_⟩
  · intro k hk b
    simp only [printableKeys, letterKeys, List.mem_append, List.mem_cons,
      List.not_mem_nil, or_false] at hk
    rcases hk with hk | hk
    · rcases hk with
        rfl|rfl|rfl|rfl|rfl|rfl|rfl|rfl|rfl|rfl|rfl|rfl|rfl|rfl|rfl|rfl|rfl|rfl|rfl|rfl|rfl|rfl|rfl|rfl|rfl|rfl
        <;> cases b <;> decide
    · rcases hk with
        rfl|rfl|rfl|rfl|rfl|rfl|rfl|rfl|rfl|rfl|rfl|rfl|rfl|rfl|rfl|rfl|rfl|rfl|rfl|rfl|rfl|rfl
        <;> cases b <;> decide
  · intro k hk
    simp only [letterKeys, List.mem_cons, List.not_mem_nil, or_false] at hk
    rcases hk with
      rfl|rfl|rfl|rfl|rfl|rfl|rfl|rfl|rfl|rfl|rfl|rfl|rfl|rfl|rfl|rfl|rfl|rfl|rfl|rfl|rfl|rfl|rfl|rfl|rfl|rfl
      <;> decide
  · intro b
    exact ⟨fun n => rfl, rfl, rfl, rfl, rfl, rfl, rfl⟩

/-- Witness for C9 at a supported and an unsupported key. -/
theorem c9_witness :
    (key_to_char Key.KEY_A true).isSome = true ∧
    key_to_char (Key.KEY_OTHER 0) true = none :=
  ⟨c9_keymap.1 Key.KEY_A (by simp [printableKeys, letterKeys]) true,
   (c9_keymap.2.2.2 true).1 0⟩

/-- C10: a release event of any non-shift key returns no match and leaves
the whole state — buffer, shift flag and trigger table — unchanged. -/
theorem c10_release_no_effect (os : OS) (te : TextExpander) (k : Key)
    (h₁ : k ≠ Key.KEY_LEFTSHIFT) (h₂ : k ≠ Key.KEY_RIGHTSHIFT) :
    TextExpander.process os te k false = (te, none) := by
  cases k <;> simp_all [TextExpander.process]

/-- Witness for C10 at a concrete state and key. -/
theorem c10_witness : TextExpander.process osNone teFix Key.KEY_A false = (teFix, none) :=
  c10_release_no_effect osNone teFix Key.KEY_A
    (fun h => Key.noConfusion h) (fun h => Key.noConfusion h)

end TextExpanderModel
